import Mathlib

/-!
# ShellScribeAI: a verification development of `main.go`

The program is a single Go file.  Its pure part is the fence-stripping
`extractScript`; the rest is the interactive loop of `main`, which chains the
completion service, a confirmation prompt and a subprocess executor.

## Embedding

* A Go `string` is modelled as the list of its code points (`GoString`).  The
  texts handled here come out of `json.Unmarshal` and of the terminal prompt
  and are valid UTF-8, for which splitting on the byte `\n`, trimming runes and
  testing a prefix agree with the same operations on code points.
* The effects (terminal prompt, HTTPS round trip with JSON decoding,
  confirmation prompt, subprocess) are mocked by an `Env` whose answers may
  depend on everything that happened before (the trace so far).  Every
  effectful function takes the trace so far and returns, next to its result,
  the events it adds to it.
* The start of `main` (API key, OS and shell detection) only produces the
  `SessionContext` the loop reads; it is taken as given.
* The `for` loop is run with a bound on the number of iterations (`mainLoop`);
  the results on it hold for every bound.
* The non-ASCII part of `unicode.ToLower` depends on the Unicode tables of the
  Go toolchain and is a parameter of the mocked world (`Env.caseTable`).
-/

namespace ShellScribeAI

/-- A Go string, as the sequence of its code points. -/
abbrev GoString := List Char

/-! ## The Go library functions used by `main.go` -/

/-- Go `unicode.IsSpace`: the Latin-1 switch, then the `White_Space` table. -/
def isSpace (r : Char) : Bool :=
  let n := r.toNat
  if n ≤ 0xFF then
    n == 0x09 || n == 0x0A || n == 0x0B || n == 0x0C || n == 0x0D || n == 0x20
      || n == 0x85 || n == 0xA0
  else
    n == 0x1680 || (0x2000 ≤ n && n ≤ 0x200A) || n == 0x2028 || n == 0x2029
      || n == 0x202F || n == 0x205F || n == 0x3000

/-- Go `strings.TrimLeftFunc`: drop the leading runes satisfying `f`. -/
def TrimLeftFunc (s : GoString) (f : Char → Bool) : GoString :=
  match s with
  | [] => []
  | c :: cs => if f c then TrimLeftFunc cs f else c :: cs

/-- Go `strings.TrimRightFunc`: drop the trailing runes satisfying `f`. -/
def TrimRightFunc (s : GoString) (f : Char → Bool) : GoString :=
  match s with
  | [] => []
  | c :: cs =>
    match TrimRightFunc cs f with
    | [] => if f c then [] else [c]
    | d :: ds => c :: d :: ds

/-- Go `strings.TrimSpace`, which is `TrimFunc(s, unicode.IsSpace)`. -/
def TrimSpace (s : GoString) : GoString :=
  TrimRightFunc (TrimLeftFunc s isSpace) isSpace

/-- Go `strings.HasPrefix`: `len(s) >= len(prefix) && s[:len(prefix)] == prefix`. -/
def HasPrefix (s pre : GoString) : Bool :=
  decide (pre.length ≤ s.length) && decide (s.take pre.length = pre)

/-- Go `strings.Split(s, sep)` for a one-character separator: the pieces of
`s` between the occurrences of `sep`; always at least one piece. -/
def Split (s : GoString) (sep : Char) : List GoString :=
  match s with
  | [] => [[]]
  | c :: cs =>
    if c = sep then [] :: Split cs sep
    else
      match Split cs sep with
      | [] => [[c]]
      | l :: ls => (c :: l) :: ls

/-- Go `strings.Join`: no element gives `""`, one element gives that element,
otherwise the elements with `sep` between consecutive ones. -/
def Join (elems : List GoString) (sep : GoString) : GoString :=
  match elems with
  | [] => []
  | [e] => e
  | e :: e2 :: es => e ++ sep ++ Join (e2 :: es) sep

/-! ## `extractScript` (main.go, lines 232-243) -/

/-- The fence marker, three backticks. -/
def fence : GoString := [Char.ofNat 96, Char.ofNat 96, Char.ofNat 96]

/-- The body of the `for _, line := range lines` loop of `extractScript`:
a fence line is skipped (`continue`), any other line is appended. -/
def extractScriptStep (scriptLines : List GoString) (line : GoString) : List GoString :=
  if HasPrefix (TrimSpace line) fence then scriptLines
  else scriptLines ++ [line]

/-- The function `extractScript`: split on newlines, run the loop from the
empty slice, join with newlines. -/
def extractScript (response : GoString) : GoString :=
  let lines := Split response '\n'
  let scriptLines := lines.foldl extractScriptStep []
  Join scriptLines ['\n']

/-! ## Case conversion and formatting -/

/-- Go `unicode.ToLower`: the ASCII range is computed; any other rune is looked
up in the case tables of the toolchain's Unicode version, which are not part of
the repository and are taken as the parameter `caseTable`. -/
def unicodeToLower (caseTable : Char → Char) (r : Char) : Char :=
  if r.toNat ≤ 0x7F then
    if 0x41 ≤ r.toNat ∧ r.toNat ≤ 0x5A then Char.ofNat (r.toNat + 0x20) else r
  else caseTable r

/-- Go `strings.ToLower`: every rune mapped by `unicode.ToLower`. -/
def ToLower (caseTable : Char → Char) (s : GoString) : GoString :=
  s.map (unicodeToLower caseTable)

/-- Go `fmt.Sprintf` for templates whose only verb is `%s`, with string
arguments: each `%s` is replaced by the next argument. -/
def Sprintf (format : GoString) (args : List GoString) : GoString :=
  match format, args with
  | [], _ => []
  | '%' :: 's' :: rest, a :: as => a ++ Sprintf rest as
  | c :: rest, as => c :: Sprintf rest as

/-! ## Data model (main.go, lines 19-37) -/

/-- A Go `error` value, identified by its message. -/
structure GoError where
  msg : GoString
deriving DecidableEq

/-- The struct `ChatMessage`. -/
structure ChatMessage where
  Role : GoString
  Content : GoString
deriving DecidableEq

/-- The struct `OpenAIChatRequest`; `Temperature` and `TopP` are always the
constant `1.0`, kept here as the numeral `1`. -/
structure OpenAIChatRequest where
  Model : GoString
  Messages : List ChatMessage
  Temperature : Nat
  MaxTokens : Nat
  TopP : Nat
deriving DecidableEq

/-- One element of `OpenAIChatResponse.Choices`. -/
structure Choice where
  Message : ChatMessage
deriving DecidableEq

/-- The struct `OpenAIChatResponse`. -/
structure OpenAIChatResponse where
  Choices : List Choice
deriving DecidableEq

/-- What is resolved once before the loop starts: the API key, `runtime.GOOS`
and the shell version. -/
structure SessionContext where
  apiKey : GoString
  osInfo : GoString
  shellVersion : GoString

/-! ## Effects and traces -/

/-- The colours of the `color` package used by `main.go`. -/
inductive Colour
  | cyan | blue | red | green | yellow
deriving DecidableEq

/-- The result of a fallible call returning a string: `(value, nil)` or
`("", err)`. -/
inductive Result
  | ok (value : GoString)
  | error (err : GoError)
deriving DecidableEq

/-- An observable step of the program, with what it returned. -/
inductive Event
  /-- The main `prompt.Run()` returned. -/
  | promptRun (result : Result)
  /-- One call of `callOpenAI` (one outbound request) and what it returned. -/
  | callOpenAI (apiKey : GoString) (request : OpenAIChatRequest) (result : Result)
  /-- A `color.X(format, args...)` call. -/
  | print (colour : Colour) (format : String) (args : List GoString)
  /-- The confirmation `confirmPrompt.Run()` returned; an error is a decline
  or a failure of the prompt. -/
  | confirmRun (result : Result)
  /-- One subprocess `name args...` spawned by `runCommand`, with its combined
  output and its error. -/
  | exec (name : GoString) (args : List GoString) (output : GoString) (err : Option GoError)
deriving DecidableEq

/-- A trace: the events so far, oldest first. -/
abbrev Trace := List Event

/-- The mocked outside world.  Every answer may depend on the whole trace so
far. -/
structure Env where
  /-- The terminal prompt for the next input line. -/
  promptRun : Trace → Result
  /-- The HTTPS round trip of `callOpenAI` up to and including
  `json.Unmarshal`: a transport or decoding error, or the parsed response. -/
  httpPost : Trace → GoString → OpenAIChatRequest → Except GoError OpenAIChatResponse
  /-- The yes/no confirmation prompt. -/
  confirmRun : Trace → Result
  /-- The subprocess run of `cmd.CombinedOutput()`. -/
  combinedOutput : Trace → GoString → List GoString → GoString × Option GoError
  /-- The non-ASCII part of `unicode.ToLower`. -/
  caseTable : Char → Char

/-- Whether an event is a call of the completion service. -/
def Event.isCompletionCall : Event → Bool
  | .callOpenAI _ _ _ => true
  | _ => false

/-- Whether an event is a spawned subprocess (an invocation of the executor). -/
def Event.isExec : Event → Bool
  | .exec _ _ _ _ => true
  | _ => false

/-- Whether an event is a `color` print. -/
def Event.isPrint : Event → Bool
  | .print _ _ _ => true
  | _ => false

/-! ## The completion client (main.go, lines 89-134) -/

/-- The error `fmt.Errorf("no response from OpenAI")`. -/
def noResponseError : GoError := ⟨"no response from OpenAI".toList⟩

/-- The request body built by `callOpenAI`. -/
def chatRequest (messages : List ChatMessage) (model : GoString) (maxTokens : Nat) :
    OpenAIChatRequest :=
  ⟨model, messages, 1, maxTokens, 1⟩

/-- Lines 124-133 of `callOpenAI`: what is returned once the round trip has
given an error or a parsed response. -/
def completionResult (r : Except GoError OpenAIChatResponse) : Result :=
  match r with
  | .error err => .error err
  | .ok openaiResp =>
    match openaiResp.Choices with
    | c :: _ => .ok (TrimSpace c.Message.Content)
    | [] => .error noResponseError

/-- The function `callOpenAI`: returns its result and the event it adds. -/
def callOpenAI (env : Env) (apiKey : GoString) (messages : List ChatMessage) (model : GoString)
    (maxTokens : Nat) (tr : Trace) : Result × List Event :=
  let requestBody := chatRequest messages model maxTokens
  let result := completionResult (env.httpPost tr apiKey requestBody)
  (result, [Event.callOpenAI apiKey requestBody result])

/-! ## Prompt builders and the stages built on the completion client -/

/-- The template of `generateCommand` (lines 139-149). -/
def commandTemplate : GoString :=
  ("# Instruction\n" ++
   "     - You are an assistant for a %s operating system with the following details:\n" ++
   "     - You must only provide the Script, without any additional explanation or text like description.\n" ++
   "     - Your responses should be informative, visually appealing, logical and actionable.\n" ++
   "     - Your responses should be very simple and complete.\n" ++
   "\n" ++
   "    # Script Creation Rules\n" ++
   "     - OS Information: %s\n" ++
   "     - Shell Version: %s\n" ++
   "     - Based on the user's input, generate a script to accomplish the task.\n" ++
   "     - To distinguish between each server, print the hostnames on environment variables.").toList

/-- The template of `interpretCommandOutput` (lines 175-183). -/
def interpretationTemplate : GoString :=
  ("You need to provide a detailed explanation of the results of executing a script.\n" ++
   "    The user should not know that the explanation is based on the script's results.\n" ++
   "    ---\n" ++
   "    User Query: %s\n" ++
   "    Script Execution Results: %s\n" ++
   "    ---\n" ++
   "    Refer to the script execution results to respond simply to the user's query.\n" ++
   "    If the query is simply to run a specific program, respond that the program has been executed.\n" ++
   "    Always respond in the user's language.").toList

/-- The template of `generateResponse` (lines 195-200). -/
def responseTemplate : GoString :=
  ("You need to provide a response to the user's input.\n" ++
   "    The response should acknowledge the user's request and indicate that you are processing it.\n" ++
   "    ---\n" ++
   "    User Query: %s\n" ++
   "    ---\n" ++
   "    Respond in a friendly and concise manner. Always respond in the user's language.").toList

/-- The template of `isTaskOrQuery` (lines 213-216). -/
def taskOrQueryTemplate : GoString :=
  ("You need to determine if the user's query requires executing a script, is a simple question, or is potentially dangerous.\n" ++
   "    Respond with \"y\" if it requires executing a script, \"n\" if it is a simple question, and \"w\" if it is a potentially dangerous task.\n" ++
   "    ---\n" ++
   "    User Query: %s").toList

/-- The model name used by every call. -/
def gpt4o : GoString := "gpt-4o".toList

/-- The messages sent by `generateCommand`. -/
def commandMessages (osInfo shellVersion prompt : GoString) : List ChatMessage :=
  [⟨"system".toList, Sprintf commandTemplate [osInfo, osInfo, shellVersion]⟩,
   ⟨"user".toList, prompt⟩]

/-- The messages sent by `interpretCommandOutput`. -/
def interpretationMessages (commandOutput userQuery : GoString) : List ChatMessage :=
  [⟨"system".toList, Sprintf interpretationTemplate [userQuery, commandOutput]⟩]

/-- The messages sent by `generateResponse`. -/
def responseMessages (userQuery : GoString) : List ChatMessage :=
  [⟨"system".toList, Sprintf responseTemplate [userQuery]⟩]

/-- The messages sent by `isTaskOrQuery`. -/
def taskOrQueryMessages (query : GoString) : List ChatMessage :=
  [⟨"system".toList, Sprintf taskOrQueryTemplate [query]⟩]

/-- The function `generateCommand`: one completion call, then the script is
extracted; in debug mode the command is echoed. -/
def generateCommand (env : Env) (apiKey osInfo shellVersion prompt : GoString) (debug : Bool)
    (tr : Trace) : Result × List Event :=
  let call := callOpenAI env apiKey (commandMessages osInfo shellVersion prompt) gpt4o 256 tr
  match call.1 with
  | .error err => (.error err, call.2)
  | .ok response =>
    let command := extractScript response
    if debug then
      (.ok command, call.2 ++ [Event.print .yellow "Generated Command: %s" [command]])
    else
      (.ok command, call.2)

/-- The function `interpretCommandOutput`. -/
def interpretCommandOutput (env : Env) (apiKey commandOutput userQuery : GoString)
    (_debug : Bool) (tr : Trace) : Result × List Event :=
  callOpenAI env apiKey (interpretationMessages commandOutput userQuery) gpt4o 256 tr

/-- The function `generateResponse`. -/
def generateResponse (env : Env) (apiKey userQuery : GoString) (_debug : Bool) (tr : Trace) :
    Result × List Event :=
  callOpenAI env apiKey (responseMessages userQuery) gpt4o 100 tr

/-- The function `isTaskOrQuery` (the classifier): the trimmed answer, not
checked against the three labels. -/
def isTaskOrQuery (env : Env) (apiKey query : GoString) (tr : Trace) : Result × List Event :=
  let call := callOpenAI env apiKey (taskOrQueryMessages query) gpt4o 50 tr
  match call.1 with
  | .error err => (.error err, call.2)
  | .ok response => (.ok (TrimSpace response), call.2)

/-! ## The executor (main.go, lines 245-270) -/

/-- The program and arguments `runCommand` builds for a command text. -/
def shellCommand (osInfo command : GoString) : GoString × List GoString :=
  if osInfo = "windows".toList then
    ("powershell".toList, ["-Command".toList, command])
  else
    ("sh".toList, ["-c".toList, command])

/-- The function `runCommand`: returns the captured output together with the
error of the run (`none` is `nil`), and the events it adds. -/
def runCommand (env : Env) (osInfo command : GoString) (debug : Bool) (tr : Trace) :
    (GoString × Option GoError) × List Event :=
  let cmd := shellCommand osInfo command
  let evs1 : List Event :=
    if debug then [Event.print .yellow "Executing Command: %s" [command]] else []
  let run := env.combinedOutput (tr ++ evs1) cmd.1 cmd.2
  let evs2 := evs1 ++ [Event.exec cmd.1 cmd.2 run.1 run.2]
  let evs3 : List Event :=
    if debug then
      (match run.2 with
        | some err => evs2 ++ [Event.print .red "Command execution error: %v" [err.msg]]
        | none => evs2)
        ++ [Event.print .yellow "Command Output: %s" [run.1]]
    else evs2
  (run, evs3)

/-! ## The interactive loop (main.go, lines 285-394) -/

/-- The text acknowledged in the case `"y"` (line 311). -/
def processingText : GoString := "Processing your request. Please wait a moment.".toList

/-- The text acknowledged in the case `"w"` (line 350). -/
def dangerText : GoString :=
  "The requested task may be dangerous. Please confirm the command below.".toList

/-- Lines 326-337 and 378-389, shared word for word by the cases `"y"` and
`"w"`: execute the command, then interpret its output. -/
def executeAndInterpret (env : Env) (ctx : SessionContext) (debug : Bool)
    (query generatedCommand : GoString) (tr : Trace) : List Event :=
  let run := runCommand env ctx.osInfo generatedCommand debug tr
  let commandOutput := run.1.1
  match run.1.2 with
  | some err =>
    run.2 ++ [Event.print .red "Failed to execute command: %v\n" [err.msg]]
  | none =>
    let interp := interpretCommandOutput env ctx.apiKey commandOutput query debug (tr ++ run.2)
    match interp.1 with
    | .error err =>
      run.2 ++ interp.2 ++
        [Event.print .red "Failed to interpret command output: %v\n" [err.msg]]
    | .ok interpretation =>
      run.2 ++ interp.2 ++ [Event.print .green "%s" [interpretation]]

/-- The case `"y"` of the switch (lines 309-337). -/
def caseY (env : Env) (ctx : SessionContext) (debug : Bool) (query : GoString) (tr : Trace) :
    List Event :=
  let ack := generateResponse env ctx.apiKey processingText debug tr
  match ack.1 with
  | .error err =>
    ack.2 ++ [Event.print .red "Failed to generate response: %v\n" [err.msg]]
  | .ok response =>
    let evs1 := ack.2 ++ [Event.print .green "%s" [response]]
    let gen := generateCommand env ctx.apiKey ctx.osInfo ctx.shellVersion query debug (tr ++ evs1)
    match gen.1 with
    | .error err =>
      evs1 ++ gen.2 ++ [Event.print .red "Failed to generate command: %v\n" [err.msg]]
    | .ok generatedCommand =>
      evs1 ++ gen.2 ++
        executeAndInterpret env ctx debug query generatedCommand (tr ++ evs1 ++ gen.2)

/-- The case `"n"` of the switch (lines 339-346). -/
def caseN (env : Env) (ctx : SessionContext) (debug : Bool) (query : GoString) (tr : Trace) :
    List Event :=
  let answer := generateResponse env ctx.apiKey query debug tr
  match answer.1 with
  | .error err =>
    answer.2 ++ [Event.print .red "Failed to generate response: %v\n" [err.msg]]
  | .ok response =>
    answer.2 ++ [Event.print .green "%s" [response]]

/-- The case `"w"` of the switch (lines 348-389). -/
def caseW (env : Env) (ctx : SessionContext) (debug : Bool) (query : GoString) (tr : Trace) :
    List Event :=
  let warn := generateResponse env ctx.apiKey dangerText debug tr
  match warn.1 with
  | .error err =>
    warn.2 ++ [Event.print .red "Failed to generate response: %v\n" [err.msg]]
  | .ok response =>
    let evs1 := warn.2 ++ [Event.print .red "%s" [response]]
    let gen := generateCommand env ctx.apiKey ctx.osInfo ctx.shellVersion query debug (tr ++ evs1)
    match gen.1 with
    | .error err =>
      evs1 ++ gen.2 ++ [Event.print .red "Failed to generate command: %v\n" [err.msg]]
    | .ok generatedCommand =>
      let evs2 := gen.2 ++ [Event.print .yellow "Generated Command: %s" [generatedCommand]]
      let confirmed := env.confirmRun (tr ++ evs1 ++ evs2)
      let evs3 := [Event.confirmRun confirmed]
      match confirmed with
      | .error _ =>
        evs1 ++ evs2 ++ evs3 ++ [Event.print .yellow "Command execution canceled." []]
      | .ok _ =>
        evs1 ++ evs2 ++ evs3 ++
          executeAndInterpret env ctx debug query generatedCommand (tr ++ evs1 ++ evs2 ++ evs3)

/-- The statement `switch queryType` (lines 308-393): the events it adds.
Every path through it ends the iteration and goes on to the next one. -/
def switchQueryType (env : Env) (ctx : SessionContext) (debug : Bool)
    (query queryType : GoString) (tr : Trace) : List Event :=
  if queryType = "y".toList then caseY env ctx debug query tr
  else if queryType = "n".toList then caseN env ctx debug query tr
  else if queryType = "w".toList then caseW env ctx debug query tr
  else [Event.print .red "Invalid query type received: %s" [queryType]]

/-- How an iteration of the `for` loop ends: `continue` (or falling off the
end of the body) or `break`. -/
inductive Flow
  | continueLoop
  | breakLoop
deriving DecidableEq

/-- One iteration of the `for` loop of `main` (lines 286-393), started after
the trace `tr`: how it ends and the events of the iteration. -/
def loopBody (env : Env) (ctx : SessionContext) (debug : Bool) (tr : Trace) :
    Flow × List Event :=
  let read := env.promptRun tr
  let evs0 := [Event.promptRun read]
  match read with
  | .error _ => (.breakLoop, evs0 ++ [Event.print .blue "Exiting the program. Goodbye!" []])
  | .ok query =>
    if ToLower env.caseTable query = "exit".toList
        ∨ ToLower env.caseTable query = "quit".toList then
      (.breakLoop, evs0 ++ [Event.print .blue "Exiting the program. Goodbye!" []])
    else if TrimSpace query = [] then
      (.continueLoop, evs0)
    else
      let cls := isTaskOrQuery env ctx.apiKey query (tr ++ evs0)
      match cls.1 with
      | .error err =>
        (.continueLoop, evs0 ++ cls.2 ++
          [Event.print .red "Failed to determine the nature of the query: %v\n" [err.msg]])
      | .ok queryType =>
        (.continueLoop, evs0 ++ cls.2 ++
          switchQueryType env ctx debug query queryType (tr ++ evs0 ++ cls.2))

/-- The `for` loop of `main`, run for at most `fuel` iterations after the
trace `tr`: the whole trace when the loop has ended by `break`, `none` when
the iterations are used up before. -/
def mainLoop (env : Env) (ctx : SessionContext) (debug : Bool) (fuel : Nat) (tr : Trace) :
    Option Trace :=
  match fuel with
  | 0 => none
  | n + 1 =>
    match loopBody env ctx debug tr with
    | (.breakLoop, evs) => some (tr ++ evs)
    | (.continueLoop, evs) => mainLoop env ctx debug n (tr ++ evs)

/-! ## Hypotheses of the loop claims -/

/-- The iteration started after the trace `tr` reads the line `query`, which is
neither an exit word nor blank, and the classifier answers `label`. -/
def ClassifiedAs (env : Env) (ctx : SessionContext) (tr : Trace) (query label : GoString) :
    Prop :=
  env.promptRun tr = .ok query ∧
  ToLower env.caseTable query ≠ "exit".toList ∧
  ToLower env.caseTable query ≠ "quit".toList ∧
  TrimSpace query ≠ [] ∧
  (isTaskOrQuery env ctx.apiKey query (tr ++ [Event.promptRun (.ok query)])).1 = .ok label

/-- The classification call of an iteration that read `query`, with its
result. -/
def classifyCall (ctx : SessionContext) (query : GoString) (r : Result) : Event :=
  .callOpenAI ctx.apiKey (chatRequest (taskOrQueryMessages query) gpt4o 50) r

/-- The acknowledgment or answer call (`generateResponse`) with its result. -/
def responseCall (ctx : SessionContext) (userQuery : GoString) (r : Result) : Event :=
  .callOpenAI ctx.apiKey (chatRequest (responseMessages userQuery) gpt4o 100) r

/-- The command-generation call (`generateCommand`) with its result. -/
def commandCall (ctx : SessionContext) (query : GoString) (r : Result) : Event :=
  .callOpenAI ctx.apiKey
    (chatRequest (commandMessages ctx.osInfo ctx.shellVersion query) gpt4o 256) r

/-- The interpretation call (`interpretCommandOutput`) with its result. -/
def interpretCall (ctx : SessionContext) (commandOutput query : GoString) (r : Result) : Event :=
  .callOpenAI ctx.apiKey (chatRequest (interpretationMessages commandOutput query) gpt4o 256) r

/-- The display of the generated command (line 364, and line 166 in debug
mode). -/
def displayCommand (command : GoString) : Event :=
  .print .yellow "Generated Command: %s" [command]

/-- The subprocess event of `runCommand` on `command`. -/
def execEvent (osInfo command output : GoString) (err : Option GoError) : Event :=
  .exec (shellCommand osInfo command).1 (shellCommand osInfo command).2 output err

/-! ## Traces as functions of the answers of the mocks

Used to enumerate the paths through an iteration: each function gives the
events of a part of the loop body once the answers are fixed. -/

/-- The events of `runCommand` when the subprocess gives `output` and `err`. -/
def runEvents (osInfo command : GoString) (debug : Bool) (output : GoString)
    (err : Option GoError) : List Event :=
  if debug then
    [Event.print .yellow "Executing Command: %s" [command],
      execEvent osInfo command output err] ++
    (match err with
      | some e => [Event.print .red "Command execution error: %v" [e.msg]]
      | none => []) ++
    [Event.print .yellow "Command Output: %s" [output]]
  else
    [execEvent osInfo command output err]

/-- The events of `executeAndInterpret` when the subprocess gives `output` and
`err` and the interpretation call returns `r`. -/
def executeTrace (ctx : SessionContext) (debug : Bool) (query command output : GoString)
    (err : Option GoError) (r : Result) : List Event :=
  runEvents ctx.osInfo command debug output err ++
    match err with
    | some e => [Event.print .red "Failed to execute command: %v\n" [e.msg]]
    | none =>
      match r with
      | .error e =>
        [interpretCall ctx output query r,
          Event.print .red "Failed to interpret command output: %v\n" [e.msg]]
      | .ok v => [interpretCall ctx output query r, Event.print .green "%s" [v]]

/-- The events of `generateCommand` when its completion call returns `r`. -/
def generateTrace (ctx : SessionContext) (debug : Bool) (query : GoString) (r : Result) :
    List Event :=
  match r with
  | .error _ => [commandCall ctx query r]
  | .ok g => if debug then [commandCall ctx query r, displayCommand (extractScript g)]
    else [commandCall ctx query r]

/-- The result of `generateCommand` when its completion call returns `r`. -/
def generateResult (r : Result) : Result :=
  match r with
  | .error e => .error e
  | .ok g => .ok (extractScript g)

/-- The events of the case `"y"` for given answers. -/
def yTrace (ctx : SessionContext) (debug : Bool) (query : GoString) (r1 r2 : Result)
    (output : GoString) (err : Option GoError) (r4 : Result) : List Event :=
  match r1 with
  | .error e =>
    [responseCall ctx processingText r1,
      Event.print .red "Failed to generate response: %v\n" [e.msg]]
  | .ok a =>
    [responseCall ctx processingText r1, Event.print .green "%s" [a]] ++
      generateTrace ctx debug query r2 ++
      match r2 with
      | .error e => [Event.print .red "Failed to generate command: %v\n" [e.msg]]
      | .ok g => executeTrace ctx debug query (extractScript g) output err r4

/-- The events of the case `"n"` for a given answer. -/
def nTrace (ctx : SessionContext) (query : GoString) (r1 : Result) : List Event :=
  match r1 with
  | .error e =>
    [responseCall ctx query r1, Event.print .red "Failed to generate response: %v\n" [e.msg]]
  | .ok a => [responseCall ctx query r1, Event.print .green "%s" [a]]

/-- The events of the case `"w"` for given answers. -/
def wTrace (ctx : SessionContext) (debug : Bool) (query : GoString) (r1 r2 confirmed : Result)
    (output : GoString) (err : Option GoError) (r4 : Result) : List Event :=
  match r1 with
  | .error e =>
    [responseCall ctx dangerText r1,
      Event.print .red "Failed to generate response: %v\n" [e.msg]]
  | .ok a =>
    [responseCall ctx dangerText r1, Event.print .red "%s" [a]] ++
      generateTrace ctx debug query r2 ++
      match r2 with
      | .error e => [Event.print .red "Failed to generate command: %v\n" [e.msg]]
      | .ok g =>
        [displayCommand (extractScript g), Event.confirmRun confirmed] ++
          match confirmed with
          | .error _ => [Event.print .yellow "Command execution canceled." []]
          | .ok _ => executeTrace ctx debug query (extractScript g) output err r4

/-- The formats of the failure reports of the stages that call the completion
service. -/
def failureFormats : List String :=
  ["Failed to determine the nature of the query: %v\n",
   "Failed to generate response: %v\n",
   "Failed to generate command: %v\n",
   "Failed to interpret command output: %v\n"]

/-- The events `rest` are exactly one failure report of the error `err`. -/
def IsFailureReport (err : GoError) (rest : List Event) : Prop :=
  ∃ fmt ∈ failureFormats, rest = [Event.print .red fmt [err.msg]]

/-- Every failed completion call of the list is followed by exactly one
failure report, which ends the list. -/
def failuresReported : List Event → Prop
  | [] => True
  | .callOpenAI _ _ (.error err) :: rest => IsFailureReport err rest
  | _ :: rest => failuresReported rest

/-- The calls of a trace: its events other than the prints. -/
def actions (evs : List Event) : List Event :=
  evs.filter (fun e => !e.isPrint)

/-! ## Concrete mocks, used to instantiate the claims -/

/-- A session on a Unix host. -/
def demoCtx : SessionContext :=
  ⟨"sk-test".toList, "linux".toList, "/bin/sh".toList⟩

/-- A completion response with the given choices' contents. -/
def responseOf (contents : List GoString) : OpenAIChatResponse :=
  ⟨contents.map (fun c => ⟨⟨"assistant".toList, c⟩⟩)⟩

/-- A mock that ignores the history: the prompt returns `input`, the
classification call (token budget 50) is answered by `label`, the
acknowledgment call (budget 100) by `ack`, every other call by `script`; the
confirmation prompt returns `confirm` and the subprocess `run`. -/
def mockEnv (input : Result) (label ack script : List GoString) (confirm : Result)
    (run : GoString × Option GoError) : Env :=
  ⟨fun _ => input,
   fun _ _ req =>
    if req.MaxTokens = 50 then .ok (responseOf label)
    else if req.MaxTokens = 100 then .ok (responseOf ack)
    else .ok (responseOf script),
   fun _ => confirm,
   fun _ _ _ => run,
   fun c => c⟩

/-- The user asks for a dangerous task and declines the confirmation. -/
def declineEnv : Env :=
  mockEnv (.ok "rm -rf /tmp/test".toList) [" w\n".toList] ["Careful.".toList]
    ["```sh\nrm -rf -- /tmp/test\n```".toList] (.error ⟨[]⟩) ([], none)

/-- The events of the declined request up to the confirmation prompt. -/
def declinePrefix : List Event :=
  [Event.promptRun (.ok "rm -rf /tmp/test".toList),
   classifyCall demoCtx "rm -rf /tmp/test".toList (.ok "w".toList),
   responseCall demoCtx dangerText (.ok "Careful.".toList),
   Event.print .red "%s" ["Careful.".toList],
   commandCall demoCtx "rm -rf /tmp/test".toList (.ok "```sh\nrm -rf -- /tmp/test\n```".toList),
   Event.print .yellow "Generated Command: %s" ["rm -rf -- /tmp/test".toList]]

/-- The user asks for a dangerous task and confirms; the command succeeds and
its output is interpreted (the mock answers the interpretation call with the
same text as the generation call). -/
def confirmEnv : Env :=
  mockEnv (.ok "rm -rf /tmp/test".toList) [" w\n".toList] ["Careful.".toList]
    ["```sh\nrm -rf -- /tmp/test\n```".toList] (.ok "y".toList) ("done".toList, none)

/-- The user asks a plain question. -/
def questionEnv : Env :=
  mockEnv (.ok "what is a shell?".toList) ["n".toList] ["A command interpreter.".toList]
    [] (.error ⟨[]⟩) ([], none)

/-- The user asks for a task; the command exits with a non-zero status. -/
def taskEnv : Env :=
  mockEnv (.ok "ls the files".toList) ["y".toList] ["On it.".toList]
    ["```\nls -la\n```".toList] (.error ⟨[]⟩) ("ls: not found".toList, some ⟨"exit status 127".toList⟩)

/-- The classifier answers with an unexpected label. -/
def strangeEnv : Env :=
  mockEnv (.ok "ls the files".toList) ["z".toList] [] [] (.error ⟨[]⟩) ([], none)

/-- The user enters only blanks. -/
def blankEnv : Env :=
  mockEnv (.ok " \t ".toList) [] [] [] (.error ⟨[]⟩) ([], none)

/-- The user enters an exit word in mixed case. -/
def quitEnv : Env :=
  mockEnv (.ok "Quit".toList) [] [] [] (.error ⟨[]⟩) ([], none)

/-- The completion service answers every call with zero choices. -/
def emptyEnv : Env :=
  mockEnv (.ok "ls the files".toList) [] [] [] (.error ⟨[]⟩) ([], none)

/-! ## The specification of the extraction, in the words of the spec -/

/-- A line is a fence line when its whitespace-trimmed form starts with the
fence marker.  Trimming is stated with the list library: drop the leading and
the trailing whitespace. -/
def isFenceLine (line : GoString) : Prop :=
  fence <+: (line.dropWhile isSpace).rdropWhile isSpace

instance (line : GoString) : Decidable (isFenceLine line) := by
  unfold isFenceLine; infer_instance

/-- The extraction as the spec words it: the lines of the response separated
by newlines, without the fence lines, joined by newlines. -/
def extractScriptSpec (response : GoString) : GoString :=
  ['\n'].intercalate ((response.splitOn '\n').filter (fun l => ¬ isFenceLine l))

/-! ## Lemmas on the library functions -/

theorem TrimLeftFunc_eq_dropWhile (s : GoString) (f : Char → Bool) :
    TrimLeftFunc s f = s.dropWhile f := by
  induction s with
  | nil => rfl
  | cons c cs ih =>
    unfold TrimLeftFunc
    by_cases h : f c = true
    · simp [h, ih, List.dropWhile]
    · simp [h, List.dropWhile]

theorem rdropWhile_cons_eq (f : Char → Bool) (c : Char) (cs : GoString) :
    (c :: cs).rdropWhile f =
      if cs.rdropWhile f = [] then (if f c then [] else [c]) else c :: cs.rdropWhile f := by
  induction cs using List.reverseRecOn with
  | nil =>
    by_cases h : f c = true
    · simp [List.rdropWhile, List.dropWhile, h]
    · simp [List.rdropWhile, List.dropWhile, h]
  | append_singleton init x ih =>
    rw [← List.cons_append]
    by_cases h : f x = true
    · rw [List.rdropWhile_concat_pos _ _ _ h, List.rdropWhile_concat_pos _ _ _ h]
      exact ih
    · rw [List.rdropWhile_concat_neg _ _ _ h, List.rdropWhile_concat_neg _ _ _ h]
      simp

theorem TrimRightFunc_eq_rdropWhile (s : GoString) (f : Char → Bool) :
    TrimRightFunc s f = s.rdropWhile f := by
  induction s with
  | nil => rfl
  | cons c cs ih =>
    unfold TrimRightFunc
    rw [ih, rdropWhile_cons_eq]
    cases h : cs.rdropWhile f with
    | nil => simp
    | cons d ds => simp

theorem TrimSpace_eq (s : GoString) :
    TrimSpace s = (s.dropWhile isSpace).rdropWhile isSpace := by
  unfold TrimSpace
  rw [TrimLeftFunc_eq_dropWhile, TrimRightFunc_eq_rdropWhile]

theorem TrimSpace_space (q : GoString) (hq : ∀ c ∈ q, isSpace c = true) : TrimSpace q = [] := by
  rw [TrimSpace_eq, List.dropWhile_eq_nil_iff.mpr hq]
  rfl

theorem HasPrefix_iff (s pre : GoString) : HasPrefix s pre = true ↔ pre <+: s := by
  unfold HasPrefix
  simp only [Bool.and_eq_true, decide_eq_true_eq]
  constructor
  · rintro ⟨_, h⟩
    rw [← h]
    exact List.take_prefix _ _
  · intro h
    exact ⟨h.length_le, List.prefix_iff_eq_take.mp h |>.symm⟩

theorem Split_eq_splitOn (s : GoString) (sep : Char) : Split s sep = s.splitOn sep := by
  induction s with
  | nil => rfl
  | cons c cs ih =>
    unfold Split
    rw [ih]
    simp only [List.splitOn, List.splitOnP_cons]
    by_cases h : c = sep
    · simp [h]
    · have hne := List.splitOnP_ne_nil (fun x => x == sep) cs
      cases hs : List.splitOnP (fun x => x == sep) cs with
      | nil => exact absurd hs hne
      | cons l ls => simp [h, List.splitOn, hs, List.modifyHead]

theorem Split_no_sep (s : GoString) (sep : Char) : ∀ l ∈ Split s sep, sep ∉ l := by
  induction s with
  | nil => simp [Split]
  | cons c cs ih =>
    unfold Split
    by_cases h : c = sep
    · simpa [h] using ih
    · cases hs : Split cs sep with
      | nil => simp [h, Ne.symm h]
      | cons l ls =>
        rw [hs] at ih
        simp only [h, if_false]
        intro x hx
        rcases List.mem_cons.mp hx with rfl | hx
        · have := ih l (List.mem_cons_self _ _)
          simp [this, Ne.symm h]
        · exact ih x (List.mem_cons_of_mem _ hx)

theorem Join_eq_intercalate (elems : List GoString) (sep : GoString) :
    Join elems sep = sep.intercalate elems := by
  induction elems with
  | nil => rfl
  | cons e es ih =>
    cases es with
    | nil => simp [Join, List.intercalate]
    | cons e2 es =>
      unfold Join
      rw [ih]
      simp [List.intercalate, List.intersperse]

theorem unicodeToLower_eq_toLower (tbl : Char → Char) (c : Char)
    (h : c.toLower.toNat ≤ 0x7F) : unicodeToLower tbl c = c.toLower := by
  unfold unicodeToLower
  unfold Char.toLower at h ⊢
  by_cases hup : c.toNat ≥ 65 ∧ c.toNat ≤ 90
  · have h1 : c.toNat ≤ 0x7F := by omega
    have h2 : 0x41 ≤ c.toNat ∧ c.toNat ≤ 0x5A := by omega
    simp only [h1, h2, hup, and_self, if_true]
  · have h1 : c.toNat ≤ 0x7F := by simpa [hup] using h
    have h2 : ¬ (0x41 ≤ c.toNat ∧ c.toNat ≤ 0x5A) := by omega
    simp only [h1, h2, hup, if_true, if_false]

theorem ToLower_eq_of_map_toLower (tbl : Char → Char) (q target : GoString)
    (hq : q.map Char.toLower = target) (ht : ∀ c ∈ target, c.toNat ≤ 0x7F) :
    ToLower tbl q = target := by
  unfold ToLower
  rw [← hq]
  apply List.map_congr_left
  intro c hc
  apply unicodeToLower_eq_toLower
  apply ht
  rw [← hq]
  exact List.mem_map_of_mem _ hc

theorem unicodeToLower_space (tbl : Char → Char) (c : Char) (hc : isSpace c = true)
    (htbl : tbl c = c) : unicodeToLower tbl c = c := by
  unfold unicodeToLower
  split
  · split
    · rename_i h1 h2
      exfalso
      unfold isSpace at hc
      have : c.toNat ≤ 0xFF := by omega
      simp only [this, if_true, Bool.or_eq_true, beq_iff_eq] at hc
      omega
    · rfl
  · exact htbl

theorem ToLower_space (tbl : Char → Char) (q : GoString) (hq : ∀ c ∈ q, isSpace c = true)
    (htbl : ∀ c, isSpace c = true → tbl c = c) : ToLower tbl q = q := by
  unfold ToLower
  conv_rhs => rw [← List.map_id q]
  apply List.map_congr_left
  intro c hc
  exact unicodeToLower_space tbl c (hq c hc) (htbl c (hq c hc))

/-! ## Lemmas on `extractScript` -/

theorem foldl_extractScriptStep (lines acc : List GoString) :
    lines.foldl extractScriptStep acc = acc ++ lines.filter (fun l => ¬ isFenceLine l) := by
  induction lines generalizing acc with
  | nil => simp
  | cons l ls ih =>
    rw [List.foldl_cons, ih]
    unfold extractScriptStep
    by_cases h : HasPrefix (TrimSpace l) fence = true
    · have h2 : isFenceLine l := by
        unfold isFenceLine; rw [← TrimSpace_eq]; exact (HasPrefix_iff _ _).mp h
      simp [h, h2]
    · have h2 : ¬ isFenceLine l := by
        unfold isFenceLine; rw [← TrimSpace_eq]; exact fun hp => h ((HasPrefix_iff _ _).mpr hp)
      simp [h, h2]

theorem extractScript_eq_spec (s : GoString) : extractScript s = extractScriptSpec s := by
  unfold extractScript extractScriptSpec
  simp only [Split_eq_splitOn, Join_eq_intercalate, foldl_extractScriptStep, List.nil_append]

theorem extractScriptSpec_of_clean (ls : List GoString) (hls : ls ≠ [])
    (hsep : ∀ l ∈ ls, '\n' ∉ l) (hkeep : ∀ l ∈ ls, ¬ isFenceLine l) :
    extractScriptSpec (['\n'].intercalate ls) = ['\n'].intercalate ls := by
  unfold extractScriptSpec
  rw [List.splitOn_intercalate _ _ hsep hls]
  congr 1
  rw [List.filter_eq_self]
  intro l hl
  simpa using hkeep l hl

/-! ## The stages in terms of the answers of the mocks -/

theorem isTaskOrQuery_events (env : Env) (apiKey query : GoString) (tr : Trace) :
    (isTaskOrQuery env apiKey query tr).2 =
      [Event.callOpenAI apiKey (chatRequest (taskOrQueryMessages query) gpt4o 50)
        (callOpenAI env apiKey (taskOrQueryMessages query) gpt4o 50 tr).1] := by
  unfold isTaskOrQuery
  simp only []
  split <;> rfl

theorem isTaskOrQuery_eq (env : Env) (ctx : SessionContext) (query : GoString) (tr : Trace) :
    (∃ e, isTaskOrQuery env ctx.apiKey query tr =
      (.error e, [classifyCall ctx query (.error e)])) ∨
    (∃ v, isTaskOrQuery env ctx.apiKey query tr =
      (.ok (TrimSpace v), [classifyCall ctx query (.ok v)])) := by
  unfold isTaskOrQuery
  simp only []
  cases h : (callOpenAI env ctx.apiKey (taskOrQueryMessages query) gpt4o 50 tr).1 with
  | error e =>
    left
    refine ⟨e, ?_⟩
    simp only [classifyCall]
    rw [← h]; rfl
  | ok v =>
    right
    refine ⟨v, ?_⟩
    simp only [classifyCall]
    rw [← h]; rfl

theorem generateResponse_eq (env : Env) (ctx : SessionContext) (userQuery : GoString)
    (debug : Bool) (tr : Trace) :
    ∃ r, generateResponse env ctx.apiKey userQuery debug tr = (r, [responseCall ctx userQuery r]) :=
  ⟨_, rfl⟩

theorem generateCommand_eq (env : Env) (ctx : SessionContext) (query : GoString)
    (debug : Bool) (tr : Trace) :
    ∃ r, generateCommand env ctx.apiKey ctx.osInfo ctx.shellVersion query debug tr =
      (generateResult r, generateTrace ctx debug query r) := by
  refine ⟨(callOpenAI env ctx.apiKey (commandMessages ctx.osInfo ctx.shellVersion query)
    gpt4o 256 tr).1, ?_⟩
  unfold generateCommand
  simp only []
  cases h : (callOpenAI env ctx.apiKey (commandMessages ctx.osInfo ctx.shellVersion query)
    gpt4o 256 tr).1 with
  | error e =>
    simp only [generateResult, generateTrace, commandCall]
    rw [← h]; rfl
  | ok g =>
    cases debug
    · simp only [generateResult, generateTrace, commandCall, Bool.false_eq_true, if_false]
      rw [← h]; rfl
    · simp only [generateResult, generateTrace, commandCall, if_true]
      rw [← h]; rfl

theorem runCommand_eq (env : Env) (osInfo command : GoString) (debug : Bool) (tr : Trace) :
    ∃ output err, runCommand env osInfo command debug tr =
      ((output, err), runEvents osInfo command debug output err) := by
  cases debug
  · exact ⟨_, _, rfl⟩
  · unfold runCommand runEvents
    simp only [if_true]
    generalize env.combinedOutput _ _ _ = run
    obtain ⟨output, err⟩ := run
    refine ⟨output, err, ?_⟩
    cases err <;> simp [execEvent]

theorem executeAndInterpret_eq (env : Env) (ctx : SessionContext) (debug : Bool)
    (query command : GoString) (tr : Trace) :
    ∃ output err r, executeAndInterpret env ctx debug query command tr =
      executeTrace ctx debug query command output err r := by
  obtain ⟨output, err, hrun⟩ := runCommand_eq env ctx.osInfo command debug tr
  unfold executeAndInterpret
  simp only [hrun]
  cases err with
  | some e => exact ⟨output, some e, .ok [], rfl⟩
  | none =>
    simp only [interpretCommandOutput, callOpenAI]
    generalize completionResult _ = r
    refine ⟨output, none, r, ?_⟩
    cases r <;> simp [executeTrace, interpretCall]

theorem caseN_eq (env : Env) (ctx : SessionContext) (debug : Bool) (query : GoString)
    (tr : Trace) : ∃ r1, caseN env ctx debug query tr = nTrace ctx query r1 := by
  obtain ⟨r1, h1⟩ := generateResponse_eq env ctx query debug tr
  refine ⟨r1, ?_⟩
  unfold caseN
  simp only [h1]
  cases r1 <;> rfl

theorem caseY_eq (env : Env) (ctx : SessionContext) (debug : Bool) (query : GoString)
    (tr : Trace) :
    ∃ r1 r2 output err r4, caseY env ctx debug query tr =
      yTrace ctx debug query r1 r2 output err r4 := by
  obtain ⟨r1, h1⟩ := generateResponse_eq env ctx processingText debug tr
  unfold caseY
  simp only [h1]
  cases r1 with
  | error e => exact ⟨.error e, .ok [], [], none, .ok [], rfl⟩
  | ok a =>
    simp only []
    obtain ⟨r2, h2⟩ := generateCommand_eq env ctx query debug
      (tr ++ ([responseCall ctx processingText (.ok a)] ++ [Event.print .green "%s" [a]]))
    simp only [h2]
    cases r2 with
    | error e => exact ⟨.ok a, .error e, [], none, .ok [], by simp [yTrace, generateResult]⟩
    | ok g =>
      simp only [generateResult]
      obtain ⟨output, err, r4, h4⟩ := executeAndInterpret_eq env ctx debug query (extractScript g)
        (tr ++ ([responseCall ctx processingText (.ok a)] ++ [Event.print .green "%s" [a]]) ++
          generateTrace ctx debug query (.ok g))
      exact ⟨.ok a, .ok g, output, err, r4, by simp at h4; simp [yTrace, h4]⟩

theorem caseW_eq (env : Env) (ctx : SessionContext) (debug : Bool) (query : GoString)
    (tr : Trace) :
    ∃ r1 r2 confirmed output err r4, caseW env ctx debug query tr =
      wTrace ctx debug query r1 r2 confirmed output err r4 := by
  obtain ⟨r1, h1⟩ := generateResponse_eq env ctx dangerText debug tr
  unfold caseW
  simp only [h1]
  cases r1 with
  | error e => exact ⟨.error e, .ok [], .ok [], [], none, .ok [], rfl⟩
  | ok a =>
    simp only []
    obtain ⟨r2, h2⟩ := generateCommand_eq env ctx query debug
      (tr ++ ([responseCall ctx dangerText (.ok a)] ++ [Event.print .red "%s" [a]]))
    simp only [h2]
    cases r2 with
    | error e =>
      exact ⟨.ok a, .error e, .ok [], [], none, .ok [], by simp [wTrace, generateResult]⟩
    | ok g =>
      simp only [generateResult]
      generalize env.confirmRun _ = confirmed
      cases confirmed with
      | error e =>
        exact ⟨.ok a, .ok g, .error e, [], none, .ok [], by simp [wTrace, displayCommand]⟩
      | ok v =>
        simp only []
        obtain ⟨output, err, r4, h4⟩ := executeAndInterpret_eq env ctx debug query
          (extractScript g)
          (tr ++ ([responseCall ctx dangerText (.ok a)] ++ [Event.print .red "%s" [a]]) ++
            (generateTrace ctx debug query (.ok g) ++
              [Event.print .yellow "Generated Command: %s" [extractScript g]]) ++
            [Event.confirmRun (.ok v)])
        exact ⟨.ok a, .ok g, .ok v, output, err, r4, by simp at h4; simp [wTrace, h4, displayCommand]⟩

theorem switchQueryType_y (env : Env) (ctx : SessionContext) (debug : Bool) (query : GoString)
    (tr : Trace) : switchQueryType env ctx debug query "y".toList tr = caseY env ctx debug query tr :=
  rfl

theorem switchQueryType_n (env : Env) (ctx : SessionContext) (debug : Bool) (query : GoString)
    (tr : Trace) : switchQueryType env ctx debug query "n".toList tr = caseN env ctx debug query tr :=
  rfl

theorem switchQueryType_w (env : Env) (ctx : SessionContext) (debug : Bool) (query : GoString)
    (tr : Trace) : switchQueryType env ctx debug query "w".toList tr = caseW env ctx debug query tr :=
  rfl

theorem switchQueryType_other (env : Env) (ctx : SessionContext) (debug : Bool)
    (query label : GoString) (tr : Trace) (hy : label ≠ "y".toList) (hn : label ≠ "n".toList)
    (hw : label ≠ "w".toList) :
    switchQueryType env ctx debug query label tr =
      [Event.print .red "Invalid query type received: %s" [label]] := by
  unfold switchQueryType
  rw [if_neg hy, if_neg hn, if_neg hw]

theorem loopBody_classified (env : Env) (ctx : SessionContext) (debug : Bool) (tr : Trace)
    (query label : GoString) (h : ClassifiedAs env ctx tr query label) :
    ∃ r, loopBody env ctx debug tr =
      (.continueLoop, [Event.promptRun (.ok query), classifyCall ctx query r] ++
        switchQueryType env ctx debug query label
          (tr ++ [Event.promptRun (.ok query), classifyCall ctx query r])) := by
  obtain ⟨h1, h2, h3, h4, h5⟩ := h
  refine ⟨(callOpenAI env ctx.apiKey (taskOrQueryMessages query) gpt4o 50
    (tr ++ [Event.promptRun (.ok query)])).1, ?_⟩
  unfold loopBody
  simp only [h1, h2, h3, h4, or_self, if_false, h5, isTaskOrQuery_events]
  simp [classifyCall]

theorem loopBody_cases (env : Env) (ctx : SessionContext) (debug : Bool) (tr : Trace) :
    (∃ rd, loopBody env ctx debug tr =
      (.breakLoop, [Event.promptRun rd, Event.print .blue "Exiting the program. Goodbye!" []])) ∨
    (∃ q, loopBody env ctx debug tr = (.continueLoop, [Event.promptRun (.ok q)])) ∨
    (∃ q e, loopBody env ctx debug tr =
      (.continueLoop, [Event.promptRun (.ok q), classifyCall ctx q (.error e),
        Event.print .red "Failed to determine the nature of the query: %v\n" [e.msg]])) ∨
    (∃ q v, loopBody env ctx debug tr =
      (.continueLoop, [Event.promptRun (.ok q), classifyCall ctx q (.ok v)] ++
        switchQueryType env ctx debug q (TrimSpace v)
          (tr ++ [Event.promptRun (.ok q), classifyCall ctx q (.ok v)]))) := by
  unfold loopBody
  cases hread : env.promptRun tr with
  | error e => left; exact ⟨_, rfl⟩
  | ok q =>
    simp only []
    split
    · left; exact ⟨_, rfl⟩
    · split
      · right; left; exact ⟨_, rfl⟩
      · right; right
        rcases isTaskOrQuery_eq env ctx q (tr ++ [Event.promptRun (.ok q)]) with ⟨e, h⟩ | ⟨v, h⟩
        · left
          exact ⟨q, e, by simp [h]⟩
        · right
          exact ⟨q, v, by simp [h]⟩

/-! ## Which events occur in the traces -/

theorem exec_mem_generateTrace (ctx : SessionContext) (debug : Bool) (query : GoString)
    (r : Result) (name : GoString) (args : List GoString) (out : GoString)
    (err : Option GoError) : Event.exec name args out err ∈ generateTrace ctx debug query r ↔ False := by
  cases r <;> cases debug <;> simp [generateTrace, commandCall, displayCommand]

theorem confirm_mem_generateTrace (ctx : SessionContext) (debug : Bool) (query : GoString)
    (r c : Result) : Event.confirmRun c ∈ generateTrace ctx debug query r ↔ False := by
  cases r <;> cases debug <;> simp [generateTrace, commandCall, displayCommand]

theorem failed_mem_generateTrace_ok (ctx : SessionContext) (debug : Bool) (query g : GoString)
    (k : GoString) (rq : OpenAIChatRequest) (err : GoError) :
    Event.callOpenAI k rq (.error err) ∈ generateTrace ctx debug query (.ok g) ↔ False := by
  cases debug <;> simp [generateTrace, commandCall, displayCommand]

theorem exec_mem_executeTrace (ctx : SessionContext) (debug : Bool)
    (query command output : GoString) (err : Option GoError) (r : Result)
    (name : GoString) (args : List GoString) (out : GoString) (e : Option GoError) :
    Event.exec name args out e ∈ executeTrace ctx debug query command output err r ↔
      (name = (shellCommand ctx.osInfo command).1 ∧ args = (shellCommand ctx.osInfo command).2 ∧
        out = output ∧ e = err) := by
  cases r <;> cases debug <;> cases err <;>
    simp [executeTrace, runEvents, execEvent, interpretCall]

theorem confirm_mem_executeTrace (ctx : SessionContext) (debug : Bool)
    (query command output : GoString) (err : Option GoError) (r c : Result) :
    Event.confirmRun c ∈ executeTrace ctx debug query command output err r ↔ False := by
  cases r <;> cases debug <;> cases err <;>
    simp [executeTrace, runEvents, execEvent, interpretCall]

theorem confirm_split (A B pre post : List Event) (c r : Result)
    (hA : ∀ c', Event.confirmRun c' ∉ A) (hB : ∀ c', Event.confirmRun c' ∉ B)
    (h : A ++ Event.confirmRun c :: B = pre ++ Event.confirmRun r :: post) :
    pre = A ∧ r = c ∧ post = B := by
  induction A generalizing pre with
  | nil =>
    cases pre with
    | nil =>
      simp only [List.nil_append, List.cons.injEq, Event.confirmRun.injEq] at h
      exact ⟨rfl, h.1.symm, h.2.symm⟩
    | cons p pre' =>
      simp only [List.nil_append, List.cons_append, List.cons.injEq] at h
      exact absurd (by rw [h.2]; simp) (hB r)
  | cons a A ih =>
    cases pre with
    | nil =>
      simp only [List.nil_append, List.cons_append, List.cons.injEq] at h
      exact absurd (by rw [h.1]; simp) (hA r)
    | cons p pre' =>
      simp only [List.cons_append, List.cons.injEq] at h
      obtain ⟨h1, h2, h3⟩ := ih pre' (fun c' hc => hA c' (List.mem_cons_of_mem _ hc)) h.2
      exact ⟨by rw [h.1, h1], h2, h3⟩

theorem no_confirm_split (l pre post : List Event) (r : Result)
    (hl : ∀ c', Event.confirmRun c' ∉ l) (h : l = pre ++ Event.confirmRun r :: post) : False :=
  hl r (by rw [h]; simp)

theorem actions_append (A B : List Event) : actions (A ++ B) = actions A ++ actions B := by
  simp [actions]

theorem actions_generateTrace (ctx : SessionContext) (debug : Bool) (query : GoString)
    (r : Result) : actions (generateTrace ctx debug query r) = [commandCall ctx query r] := by
  cases r <;> cases debug <;>
    simp [actions, generateTrace, commandCall, displayCommand, Event.isPrint]

theorem actions_executeTrace_some (ctx : SessionContext) (debug : Bool)
    (query command output : GoString) (e : GoError) (r : Result) :
    actions (executeTrace ctx debug query command output (some e) r) =
      [execEvent ctx.osInfo command output (some e)] := by
  cases debug <;> simp [actions, executeTrace, runEvents, execEvent, Event.isPrint]

theorem actions_executeTrace_none (ctx : SessionContext) (debug : Bool)
    (query command output : GoString) (r : Result) :
    actions (executeTrace ctx debug query command output none r) =
      [execEvent ctx.osInfo command output none, interpretCall ctx output query r] := by
  cases r <;> cases debug <;>
    simp [actions, executeTrace, runEvents, execEvent, interpretCall, Event.isPrint]

/-! ## Failed completion calls are reported -/

theorem failuresReported_split (l pre post : List Event) (k : GoString)
    (rq : OpenAIChatRequest) (err : GoError) (hl : failuresReported l)
    (h : l = pre ++ Event.callOpenAI k rq (.error err) :: post) : IsFailureReport err post := by
  induction pre generalizing l with
  | nil =>
    subst h
    simpa [failuresReported] using hl
  | cons p pre ih =>
    subst h
    cases p with
    | callOpenAI k' rq' res =>
      cases res with
      | ok v => exact ih _ (by simpa [failuresReported] using hl) rfl
      | error e =>
        simp only [List.cons_append, failuresReported, IsFailureReport] at hl
        obtain ⟨fmt, -, hfmt⟩ := hl
        cases pre <;> simp at hfmt
    | promptRun _ => exact ih _ (by simpa [failuresReported] using hl) rfl
    | print _ _ _ => exact ih _ (by simpa [failuresReported] using hl) rfl
    | confirmRun _ => exact ih _ (by simpa [failuresReported] using hl) rfl
    | exec _ _ _ _ => exact ih _ (by simpa [failuresReported] using hl) rfl

theorem failuresReported_append (A B : List Event)
    (hA : ∀ k rq err, Event.callOpenAI k rq (.error err) ∉ A) :
    failuresReported (A ++ B) ↔ failuresReported B := by
  induction A with
  | nil => simp
  | cons a A ih =>
    have ih' := ih (fun k rq err hmem => hA k rq err (List.mem_cons_of_mem _ hmem))
    cases a with
    | callOpenAI k' rq' res =>
      cases res with
      | ok v => simpa [failuresReported] using ih'
      | error e => exact absurd (List.mem_cons_self _ _) (hA k' rq' e)
    | promptRun _ => simpa [failuresReported] using ih'
    | print _ _ _ => simpa [failuresReported] using ih'
    | confirmRun _ => simpa [failuresReported] using ih'
    | exec _ _ _ _ => simpa [failuresReported] using ih'

theorem failuresReported_executeTrace (ctx : SessionContext) (debug : Bool)
    (query command output : GoString) (err : Option GoError) (r : Result) :
    failuresReported (executeTrace ctx debug query command output err r) := by
  cases r <;> cases debug <;> cases err <;>
    simp [executeTrace, runEvents, execEvent, interpretCall, failuresReported,
      IsFailureReport, failureFormats]

theorem failuresReported_yTrace (ctx : SessionContext) (debug : Bool) (query : GoString)
    (r1 r2 : Result) (output : GoString) (err : Option GoError) (r4 : Result) :
    failuresReported (yTrace ctx debug query r1 r2 output err r4) := by
  rcases r1 with a | e1
  · rcases r2 with g | e2
    · have : yTrace ctx debug query (.ok a) (.ok g) output err r4 =
          ([responseCall ctx processingText (.ok a), Event.print .green "%s" [a]] ++
            generateTrace ctx debug query (.ok g)) ++
          executeTrace ctx debug query (extractScript g) output err r4 := by
        simp [yTrace]
      rw [this, failuresReported_append]
      · exact failuresReported_executeTrace _ _ _ _ _ _ _
      · simp [responseCall, failed_mem_generateTrace_ok]
    · simp [yTrace, generateTrace, responseCall, commandCall, failuresReported,
        IsFailureReport, failureFormats]
  · simp [yTrace, responseCall, failuresReported, IsFailureReport, failureFormats]

theorem failuresReported_nTrace (ctx : SessionContext) (query : GoString) (r1 : Result) :
    failuresReported (nTrace ctx query r1) := by
  cases r1 <;> simp [nTrace, responseCall, failuresReported, IsFailureReport, failureFormats]

theorem failuresReported_wTrace (ctx : SessionContext) (debug : Bool) (query : GoString)
    (r1 r2 c : Result) (output : GoString) (err : Option GoError) (r4 : Result) :
    failuresReported (wTrace ctx debug query r1 r2 c output err r4) := by
  rcases r1 with a | e1
  · rcases r2 with g | e2
    · rcases c with v | e3
      · have : wTrace ctx debug query (.ok a) (.ok g) (.ok v) output err r4 =
            ([responseCall ctx dangerText (.ok a), Event.print .red "%s" [a]] ++
              generateTrace ctx debug query (.ok g) ++
              [displayCommand (extractScript g), Event.confirmRun (.ok v)]) ++
            executeTrace ctx debug query (extractScript g) output err r4 := by
          simp [wTrace]
        rw [this, failuresReported_append]
        · exact failuresReported_executeTrace _ _ _ _ _ _ _
        · simp [responseCall, displayCommand, failed_mem_generateTrace_ok]
      · have : wTrace ctx debug query (.ok a) (.ok g) (.error e3) output err r4 =
            ([responseCall ctx dangerText (.ok a), Event.print .red "%s" [a]] ++
              generateTrace ctx debug query (.ok g) ++
              [displayCommand (extractScript g), Event.confirmRun (.error e3),
                Event.print .yellow "Command execution canceled." []]) ++ [] := by
          simp [wTrace]
        rw [this, failuresReported_append]
        · simp [failuresReported]
        · simp [responseCall, displayCommand, failed_mem_generateTrace_ok]
    · simp [wTrace, generateTrace, responseCall, commandCall, failuresReported,
        IsFailureReport, failureFormats]
  · simp [wTrace, responseCall, failuresReported, IsFailureReport, failureFormats]

theorem failuresReported_switch (env : Env) (ctx : SessionContext) (debug : Bool)
    (query label : GoString) (tr : Trace) :
    failuresReported (switchQueryType env ctx debug query label tr) := by
  unfold switchQueryType
  split
  · obtain ⟨r1, r2, o, e, r4, h⟩ := caseY_eq env ctx debug query tr
    rw [h]; exact failuresReported_yTrace _ _ _ _ _ _ _ _
  · split
    · obtain ⟨r1, h⟩ := caseN_eq env ctx debug query tr
      rw [h]; exact failuresReported_nTrace _ _ _
    · split
      · obtain ⟨r1, r2, c, o, e, r4, h⟩ := caseW_eq env ctx debug query tr
        rw [h]; exact failuresReported_wTrace _ _ _ _ _ _ _ _ _
      · simp [failuresReported]

theorem failuresReported_loopBody (env : Env) (ctx : SessionContext) (debug : Bool)
    (tr : Trace) : failuresReported (loopBody env ctx debug tr).2 := by
  rcases loopBody_cases env ctx debug tr with ⟨rd, h⟩ | ⟨q, h⟩ | ⟨q, e, h⟩ | ⟨q, v, h⟩
  · rw [h]; simp [failuresReported]
  · rw [h]; simp [failuresReported]
  · rw [h]; simp [failuresReported, classifyCall, IsFailureReport, failureFormats]
  · rw [h]
    show failuresReported ([Event.promptRun (.ok q), classifyCall ctx q (.ok v)] ++ _)
    rw [failuresReported_append]
    · exact failuresReported_switch _ _ _ _ _ _
    · simp [classifyCall]

/-! ## Two scenarios, evaluated -/

theorem scenario_task_calls :
    actions (loopBody taskEnv demoCtx true []).2 =
      [Event.promptRun (.ok "ls the files".toList),
       classifyCall demoCtx "ls the files".toList (.ok "y".toList),
       responseCall demoCtx processingText (.ok "On it.".toList),
       commandCall demoCtx "ls the files".toList (.ok "```\nls -la\n```".toList),
       Event.exec "sh".toList ["-c".toList, "ls -la".toList] "ls: not found".toList
        (some ⟨"exit status 127".toList⟩)] := by
  rfl

theorem scenario_decline_trace :
    (loopBody declineEnv demoCtx false []).2 =
      declinePrefix ++
        [Event.confirmRun (.error ⟨[]⟩),
         Event.print .yellow "Command execution canceled." []] := by
  rfl

theorem scenario_confirm_trace :
    (loopBody confirmEnv demoCtx false []).2 =
      declinePrefix ++
        [Event.confirmRun (.ok "y".toList),
         Event.exec "sh".toList ["-c".toList, "rm -rf -- /tmp/test".toList] "done".toList none,
         interpretCall demoCtx "done".toList "rm -rf /tmp/test".toList
          (.ok "```sh\nrm -rf -- /tmp/test\n```".toList),
         Event.print .green "%s" ["```sh\nrm -rf -- /tmp/test\n```".toList]] := by
  rfl

/-! ## The claims -/

/-- C1: in an iteration classified `w`, a subprocess is spawned if and only if
the confirmation prompt returned without error; what comes before the
confirmation prompt is exactly the read, the classification call, the warning
call and its print, the command-generation call with an answer `g`, and the
display of the script extracted from `g` (twice in debug mode), which is thus
the event just before the prompt; every subprocess of the iteration runs
exactly that extracted script; when the confirmation prompt returns an error
(decline or failure) no subprocess is spawned and the notice "Command
execution canceled." is printed. -/
theorem dangerous_turn_executes_iff_confirmed (env : Env) (ctx : SessionContext)
    (debug : Bool) (tr : Trace)
    (query : GoString) (h : ClassifiedAs env ctx tr query "w".toList) :
    ((∃ name args out err, Event.exec name args out err ∈ (loopBody env ctx debug tr).2) ↔
        ∃ v, Event.confirmRun (.ok v) ∈ (loopBody env ctx debug tr).2) ∧
    (∀ pre r post, (loopBody env ctx debug tr).2 = pre ++ Event.confirmRun r :: post →
      ∃ rc a g,
        pre = [Event.promptRun (.ok query), classifyCall ctx query rc,
            responseCall ctx dangerText (.ok a), Event.print .red "%s" [a],
            commandCall ctx query (.ok g)] ++
          (if debug then [displayCommand (extractScript g)] else []) ++
          [displayCommand (extractScript g)] ∧
        pre.getLast? = some (displayCommand (extractScript g)) ∧
        ∀ name args out err, Event.exec name args out err ∈ (loopBody env ctx debug tr).2 →
          (name, args) = shellCommand ctx.osInfo (extractScript g)) ∧
    (∀ err, Event.confirmRun (.error err) ∈ (loopBody env ctx debug tr).2 →
      (∀ name args out e, Event.exec name args out e ∉ (loopBody env ctx debug tr).2) ∧
        Event.print .yellow "Command execution canceled." [] ∈ (loopBody env ctx debug tr).2) := by
  obtain ⟨r, hr⟩ := loopBody_classified env ctx debug tr query _ h
  obtain ⟨r1, r2, c, out, err, r4, hw⟩ := caseW_eq env ctx debug query
    (tr ++ [Event.promptRun (.ok query), classifyCall ctx query r])
  rw [hr, switchQueryType_w, hw]
  rcases r1 with a | e1
  · rcases r2 with g | e2
    · -- the confirmation prompt is reached
      have hA : ∀ c', Event.confirmRun c' ∉
          [Event.promptRun (.ok query), classifyCall ctx query r,
            responseCall ctx dangerText (.ok a), Event.print .red "%s" [a]] ++
            generateTrace ctx debug query (.ok g) ++ [displayCommand (extractScript g)] := by
        simp [classifyCall, responseCall, displayCommand, confirm_mem_generateTrace]
      rcases c with v | e3
      · have hshape : [Event.promptRun (.ok query), classifyCall ctx query r] ++
            wTrace ctx debug query (.ok a) (.ok g) (.ok v) out err r4 =
            ([Event.promptRun (.ok query), classifyCall ctx query r,
              responseCall ctx dangerText (.ok a), Event.print .red "%s" [a]] ++
              generateTrace ctx debug query (.ok g) ++ [displayCommand (extractScript g)]) ++
            Event.confirmRun (.ok v) ::
              executeTrace ctx debug query (extractScript g) out err r4 := by
          simp [wTrace]
        refine ⟨?_, ?_, ?_⟩
        · constructor
          · intro _
            exact ⟨v, by simp [wTrace]⟩
          · intro _
            exact ⟨(shellCommand ctx.osInfo (extractScript g)).1,
              (shellCommand ctx.osInfo (extractScript g)).2, out, err,
              by simp [wTrace, exec_mem_executeTrace]⟩
        · intro pre r' post hsplit
          rw [hshape] at hsplit
          obtain ⟨hpre, -, -⟩ := confirm_split _ _ _ _ _ _ hA
            (by simp [confirm_mem_executeTrace]) hsplit
          refine ⟨r, a, g, ?_, by rw [hpre, List.getLast?_concat], ?_⟩
          · rw [hpre]
            cases debug <;> simp [generateTrace]
          · intro name args o e hmem
            simp [wTrace, classifyCall, responseCall, displayCommand, exec_mem_generateTrace,
              exec_mem_executeTrace] at hmem
            simp [hmem]
        · simp [wTrace, classifyCall, responseCall, displayCommand, confirm_mem_generateTrace,
            confirm_mem_executeTrace]
      · have hshape : [Event.promptRun (.ok query), classifyCall ctx query r] ++
            wTrace ctx debug query (.ok a) (.ok g) (.error e3) out err r4 =
            ([Event.promptRun (.ok query), classifyCall ctx query r,
              responseCall ctx dangerText (.ok a), Event.print .red "%s" [a]] ++
              generateTrace ctx debug query (.ok g) ++ [displayCommand (extractScript g)]) ++
            Event.confirmRun (.error e3) ::
              [Event.print .yellow "Command execution canceled." []] := by
          simp [wTrace]
        refine ⟨?_, ?_, ?_⟩
        · simp [wTrace, classifyCall, responseCall, displayCommand, exec_mem_generateTrace,
            confirm_mem_generateTrace]
        · intro pre r' post hsplit
          rw [hshape] at hsplit
          obtain ⟨hpre, -, -⟩ := confirm_split _ _ _ _ _ _ hA (by simp) hsplit
          refine ⟨r, a, g, ?_, by rw [hpre, List.getLast?_concat], ?_⟩
          · rw [hpre]
            cases debug <;> simp [generateTrace]
          · intro name args o e hmem
            simp [wTrace, classifyCall, responseCall, displayCommand, exec_mem_generateTrace]
              at hmem
        · simp [wTrace, classifyCall, responseCall, displayCommand, exec_mem_generateTrace]
    · simp [wTrace, classifyCall, responseCall, exec_mem_generateTrace,
        confirm_mem_generateTrace]
      intro pre r' post hsplit
      refine (no_confirm_split _ pre post r' ?_ hsplit).elim
      simp [classifyCall, responseCall, confirm_mem_generateTrace]
  · simp [wTrace, classifyCall, responseCall, List.cons_eq_append_iff]

/-- C1 at a declined dangerous request whose generated script differs from the
request text: the hypothesis holds, no subprocess is spawned, the canceled
notice is printed, and the events before the prompt hold a generation call
whose extracted script is the command displayed last. -/
theorem dangerous_turn_executes_iff_confirmed_witness :
    ClassifiedAs declineEnv demoCtx [] "rm -rf /tmp/test".toList "w".toList ∧
      (∀ name args out e, Event.exec name args out e ∉ (loopBody declineEnv demoCtx false []).2) ∧
      Event.print .yellow "Command execution canceled." [] ∈
        (loopBody declineEnv demoCtx false []).2 ∧
      ∃ g, commandCall demoCtx "rm -rf /tmp/test".toList (.ok g) ∈ declinePrefix ∧
        declinePrefix.getLast? = some (displayCommand (extractScript g)) := by
  have h : ClassifiedAs declineEnv demoCtx [] "rm -rf /tmp/test".toList "w".toList :=
    ⟨rfl, by decide, by decide, by decide, by decide⟩
  have hthm := dangerous_turn_executes_iff_confirmed declineEnv demoCtx false []
    "rm -rf /tmp/test".toList h
  obtain ⟨rc, a, g, hpre, hlast, -⟩ := hthm.2.1 declinePrefix (.error ⟨[]⟩)
    [Event.print .yellow "Command execution canceled." []] rfl
  refine ⟨h, (hthm.2.2 ⟨[]⟩ (by decide)).1, (hthm.2.2 ⟨[]⟩ (by decide)).2, g, ?_, hlast⟩
  rw [hpre]
  simp

/-- C2: in an iteration classified `n`, no event is a spawned subprocess,
whatever the completion service answers. -/
theorem question_turn_never_executes (env : Env) (ctx : SessionContext) (debug : Bool) (tr : Trace)
    (query : GoString) (h : ClassifiedAs env ctx tr query "n".toList) :
    ∀ e ∈ (loopBody env ctx debug tr).2, e.isExec = false := by
  obtain ⟨r, hr⟩ := loopBody_classified env ctx debug tr query _ h
  obtain ⟨r1, hn⟩ := caseN_eq env ctx debug query
    (tr ++ [Event.promptRun (.ok query), classifyCall ctx query r])
  rw [hr, switchQueryType_n, hn]
  cases r1 <;> simp [nTrace, classifyCall, responseCall, Event.isExec]

/-- C2 at a plain question, in debug mode. -/
theorem question_turn_never_executes_witness :
    ClassifiedAs questionEnv demoCtx [] "what is a shell?".toList "n".toList ∧
      ∀ e ∈ (loopBody questionEnv demoCtx true []).2, e.isExec = false :=
  have h : ClassifiedAs questionEnv demoCtx [] "what is a shell?".toList "n".toList :=
    ⟨rfl, by decide, by decide, by decide, by decide⟩
  ⟨h, question_turn_never_executes questionEnv demoCtx true [] _ h⟩

/-- C3: `extractScript` is idempotent: extracting from an extracted script
gives the same script again. -/
theorem extractScript_idempotent (s : GoString) :
    extractScript (extractScript s) = extractScript s := by
  rw [extractScript_eq_spec s]
  generalize hK : (s.splitOn '\n').filter (fun l => ¬ isFenceLine l) = K
  have hKsep : ∀ l ∈ K, '\n' ∉ l := by
    intro l hl
    rw [← hK] at hl
    have hl2 := (List.mem_filter.mp hl).1
    rw [← Split_eq_splitOn] at hl2
    exact Split_no_sep s '\n' l hl2
  have hKkeep : ∀ l ∈ K, ¬ isFenceLine l := by
    intro l hl
    rw [← hK] at hl
    simpa using (List.mem_filter.mp hl).2
  have hspec : extractScriptSpec s = ['\n'].intercalate K := by
    unfold extractScriptSpec; rw [hK]
  rw [hspec, extractScript_eq_spec]
  by_cases hnil : K = []
  · subst hnil
    unfold extractScriptSpec
    by_cases hf : isFenceLine []
    · simp [List.intercalate, hf]
    · simp [List.intercalate, hf]
  · exact extractScriptSpec_of_clean K hnil hKsep hKkeep

/-- C4: `extractScript` returns the lines of the response (split on newlines),
in order, without the lines whose trimmed form starts with the fence marker,
joined by newlines; a fenced `ls -la` gives `ls -la`. -/
theorem extractScript_filters_fence_lines :
    (∀ s : GoString, extractScript s = extractScriptSpec s) ∧
      extractScript "```\nls -la\n```".toList = "ls -la".toList :=
  ⟨extractScript_eq_spec, by decide⟩

/-- C5: a response none of whose lines is a fence line is returned unchanged
(character for character). -/
theorem extractScript_no_fence (s : GoString)
    (h : ∀ line ∈ Split s '\n', HasPrefix (TrimSpace line) fence = false) :
    extractScript s = s := by
  have hjoin : ['\n'].intercalate (s.splitOn '\n') = s := List.intercalate_splitOn _ _
  have hkeep : ∀ l ∈ s.splitOn '\n', ¬ isFenceLine l := by
    intro l hl hf
    rw [← Split_eq_splitOn] at hl
    have h1 := h l hl
    unfold isFenceLine at hf
    rw [← TrimSpace_eq] at hf
    rw [(HasPrefix_iff _ _).mpr hf] at h1
    exact Bool.noConfusion h1
  have hsep : ∀ l ∈ s.splitOn '\n', '\n' ∉ l := by
    intro l hl
    rw [← Split_eq_splitOn] at hl
    exact Split_no_sep s '\n' l hl
  have := extractScriptSpec_of_clean (s.splitOn '\n') (List.splitOnP_ne_nil _ _) hsep hkeep
  rw [hjoin] at this
  rw [extractScript_eq_spec]
  exact this

/-- C5 at a two-line script. -/
theorem extractScript_no_fence_witness :
    (∀ line ∈ Split "ls -la\n  echo hi ".toList '\n',
        HasPrefix (TrimSpace line) fence = false) ∧
      extractScript "ls -la\n  echo hi ".toList = "ls -la\n  echo hi ".toList :=
  ⟨by decide, extractScript_no_fence _ (by decide)⟩

/-- C6: when the line read is empty or made of white space only, the
iteration consists of the read alone (no completion call, no subprocess) and
the loop goes on to its next iteration.  The Unicode case table is assumed to
leave white space unchanged. -/
theorem blank_input_skips_turn (env : Env) (ctx : SessionContext)
    (debug : Bool) (tr : Trace) (query : GoString)
    (hread : env.promptRun tr = .ok query)
    (hblank : ∀ c ∈ query, isSpace c = true)
    (hcase : ∀ c, isSpace c = true → env.caseTable c = c) :
    loopBody env ctx debug tr = (.continueLoop, [Event.promptRun (.ok query)]) ∧
      (∀ e ∈ (loopBody env ctx debug tr).2, e.isCompletionCall = false ∧ e.isExec = false) ∧
      ∀ n, mainLoop env ctx debug (n + 1) tr =
        mainLoop env ctx debug n (tr ++ [Event.promptRun (.ok query)]) := by
  have hlow : ToLower env.caseTable query = query := ToLower_space _ _ hblank hcase
  have hexit : query ≠ "exit".toList := by
    intro h
    have := hblank 'e' (by rw [h]; decide)
    exact absurd this (by decide)
  have hquit : query ≠ "quit".toList := by
    intro h
    have := hblank 'q' (by rw [h]; decide)
    exact absurd this (by decide)
  have hbody : loopBody env ctx debug tr = (.continueLoop, [Event.promptRun (.ok query)]) := by
    unfold loopBody
    simp only [hread, hlow, hexit, hquit, or_self, if_false, TrimSpace_space query hblank,
      if_true]
  refine ⟨hbody, ?_, ?_⟩
  · rw [hbody]
    simp [Event.isCompletionCall, Event.isExec]
  · intro n
    rw [mainLoop, hbody]

/-- C6 at a line of blanks. -/
theorem blank_input_skips_turn_witness :
    loopBody blankEnv demoCtx false [] =
      (.continueLoop, [Event.promptRun (.ok " \t ".toList)]) :=
  (blank_input_skips_turn blankEnv demoCtx false [] " \t ".toList rfl (by decide)
    (fun _ _ => rfl)).1

/-- C7: when the read fails, or the line equals `exit` or `quit` up to letter
case, the iteration consists of the read and the goodbye message (no
completion call, no subprocess) and the loop ends there. -/
theorem exit_word_or_read_failure_ends_loop (env : Env) (ctx : SessionContext)
    (debug : Bool) (tr : Trace)
    (h : (∃ err, env.promptRun tr = .error err) ∨
      ∃ query, env.promptRun tr = .ok query ∧
        (query.map Char.toLower = "exit".toList ∨ query.map Char.toLower = "quit".toList)) :
    loopBody env ctx debug tr =
        (.breakLoop, [Event.promptRun (env.promptRun tr),
          Event.print .blue "Exiting the program. Goodbye!" []]) ∧
      (∀ e ∈ (loopBody env ctx debug tr).2, e.isCompletionCall = false ∧ e.isExec = false) ∧
      ∀ n, mainLoop env ctx debug (n + 1) tr =
        some (tr ++ [Event.promptRun (env.promptRun tr),
          Event.print .blue "Exiting the program. Goodbye!" []]) := by
  have hbody : loopBody env ctx debug tr =
      (.breakLoop, [Event.promptRun (env.promptRun tr),
        Event.print .blue "Exiting the program. Goodbye!" []]) := by
    rcases h with ⟨err, hread⟩ | ⟨query, hread, hword⟩
    · unfold loopBody
      simp only [hread]
      rfl
    · have hlow : ToLower env.caseTable query = "exit".toList ∨
          ToLower env.caseTable query = "quit".toList := by
        rcases hword with hw | hw
        · exact Or.inl (ToLower_eq_of_map_toLower _ _ _ hw (by decide))
        · exact Or.inr (ToLower_eq_of_map_toLower _ _ _ hw (by decide))
      unfold loopBody
      simp only [hread, hlow, if_true]
      rfl
  refine ⟨hbody, ?_, ?_⟩
  · rw [hbody]
    simp [Event.isCompletionCall, Event.isExec]
  · intro n
    rw [mainLoop, hbody]

/-- C7 at the input `Quit`. -/
theorem exit_word_or_read_failure_ends_loop_witness :
    mainLoop quitEnv demoCtx false 1 [] =
      some [Event.promptRun (.ok "Quit".toList),
        Event.print .blue "Exiting the program. Goodbye!" []] :=
  (exit_word_or_read_failure_ends_loop quitEnv demoCtx false []
    (Or.inr ⟨"Quit".toList, rfl, Or.inr (by decide)⟩)).2.2 0

/-- C8: for a successfully parsed response, `callOpenAI` returns an error if
and only if there is no choice (the error "no response from OpenAI"), and
otherwise the trimmed content of the first choice whatever the later choices;
and in any iteration, a completion call that returned an error (this one in
particular) is followed by one failure report and nothing else, so by no
subprocess. -/
theorem empty_choices_is_reported_failure (env : Env) :
    (∀ (apiKey : GoString) (messages : List ChatMessage) (model : GoString) (maxTokens : Nat)
        (tr : Trace) (resp : OpenAIChatResponse),
        env.httpPost tr apiKey (chatRequest messages model maxTokens) = .ok resp →
        ((∃ err, (callOpenAI env apiKey messages model maxTokens tr).1 = .error err) ↔
            resp.Choices = []) ∧
          (resp.Choices = [] →
            (callOpenAI env apiKey messages model maxTokens tr).1 = .error noResponseError) ∧
          (∀ c rest, resp.Choices = c :: rest →
            (callOpenAI env apiKey messages model maxTokens tr).1 =
              .ok (TrimSpace c.Message.Content))) ∧
    (∀ (ctx : SessionContext) (debug : Bool) (tr pre post : Trace) (key : GoString)
        (req : OpenAIChatRequest) (failure : GoError),
        (loopBody env ctx debug tr).2 =
          pre ++ Event.callOpenAI key req (.error failure) :: post →
        (∃ fmt ∈ failureFormats, post = [Event.print .red fmt [failure.msg]]) ∧
          ∀ name args out err, Event.exec name args out err ∉ post) := by
  constructor
  · intro apiKey messages model maxTokens tr resp hparsed
    unfold callOpenAI
    simp only [hparsed, completionResult]
    cases hc : resp.Choices with
    | nil => simp
    | cons c rest => simp
  · intro ctx debug tr pre post key req failure hsplit
    have hrep := failuresReported_split _ pre post key req failure
      (failuresReported_loopBody env ctx debug tr) hsplit
    refine ⟨hrep, ?_⟩
    obtain ⟨fmt, -, hpost⟩ := hrep
    rw [hpost]
    simp

/-- C8 at a completion service that answers with zero choices. -/
theorem empty_choices_is_reported_failure_witness :
    (callOpenAI emptyEnv demoCtx.apiKey (taskOrQueryMessages "ls the files".toList) gpt4o 50
        [Event.promptRun (.ok "ls the files".toList)]).1 = .error noResponseError ∧
      ∀ name args out err, Event.exec name args out err ∉
        [Event.print .red "Failed to determine the nature of the query: %v\n"
          [noResponseError.msg]] :=
  ⟨((empty_choices_is_reported_failure emptyEnv).1 demoCtx.apiKey
      (taskOrQueryMessages "ls the files".toList) gpt4o 50
      [Event.promptRun (.ok "ls the files".toList)] (responseOf []) rfl).2.1 rfl,
    ((empty_choices_is_reported_failure emptyEnv).2 demoCtx false []
      [Event.promptRun (.ok "ls the files".toList)]
      [Event.print .red "Failed to determine the nature of the query: %v\n"
        [noResponseError.msg]] demoCtx.apiKey
      (chatRequest (taskOrQueryMessages "ls the files".toList) gpt4o 50) noResponseError
      rfl).2⟩

/-- C9: when the classifier's label is none of `y`, `n`, `w`, the iteration
consists of the read, the classification call and the report "Invalid query
type received" (no further completion call, no subprocess), and the loop goes
on to its next iteration. -/
theorem unknown_label_reports_and_continues (env : Env) (ctx : SessionContext)
    (debug : Bool) (tr : Trace)
    (query label : GoString) (h : ClassifiedAs env ctx tr query label)
    (hy : label ≠ "y".toList) (hn : label ≠ "n".toList) (hw : label ≠ "w".toList) :
    ∃ r, loopBody env ctx debug tr =
        (.continueLoop, [Event.promptRun (.ok query), classifyCall ctx query r,
          Event.print .red "Invalid query type received: %s" [label]]) ∧
      ∀ n, mainLoop env ctx debug (n + 1) tr =
        mainLoop env ctx debug n (tr ++ [Event.promptRun (.ok query), classifyCall ctx query r,
          Event.print .red "Invalid query type received: %s" [label]]) := by
  obtain ⟨r, hr⟩ := loopBody_classified env ctx debug tr query label h
  rw [switchQueryType_other _ _ _ _ _ _ hy hn hw] at hr
  refine ⟨r, hr, ?_⟩
  intro n
  rw [mainLoop, hr]
  rfl

/-- C9 at the label `z`. -/
theorem unknown_label_reports_and_continues_witness :
    ClassifiedAs strangeEnv demoCtx [] "ls the files".toList "z".toList ∧
      ∃ r, loopBody strangeEnv demoCtx false [] =
        (.continueLoop, [Event.promptRun (.ok "ls the files".toList),
          classifyCall demoCtx "ls the files".toList r,
          Event.print .red "Invalid query type received: %s" ["z".toList]]) :=
  have h : ClassifiedAs strangeEnv demoCtx [] "ls the files".toList "z".toList :=
    ⟨rfl, by decide, by decide, by decide, by decide⟩
  have hc := unknown_label_reports_and_continues strangeEnv demoCtx false [] _ _ h
    (by decide) (by decide) (by decide)
  ⟨h, hc.elim (fun r hr => ⟨r, hr.1⟩)⟩

/-- C10: in an iteration classified `y`, the calls made (the events other than
prints) are, after the read and the classification, an initial segment of
acknowledgment, command generation, execution, interpretation that stops at
the first failed stage: the subprocess runs only after both completion calls
succeeded and runs the extracted script of the generated answer, the
interpretation call is made only when the subprocess returned no error; the
loop always goes on to its next iteration. -/
theorem task_turn_stage_order (env : Env) (ctx : SessionContext) (debug : Bool) (tr : Trace)
    (query : GoString) (h : ClassifiedAs env ctx tr query "y".toList) :
    (loopBody env ctx debug tr).1 = .continueLoop ∧
    ∃ rc,
      (∃ e, actions (loopBody env ctx debug tr).2 =
        [Event.promptRun (.ok query), classifyCall ctx query rc,
          responseCall ctx processingText (.error e)]) ∨
      (∃ a e, actions (loopBody env ctx debug tr).2 =
        [Event.promptRun (.ok query), classifyCall ctx query rc,
          responseCall ctx processingText (.ok a), commandCall ctx query (.error e)]) ∨
      (∃ a g out e, actions (loopBody env ctx debug tr).2 =
        [Event.promptRun (.ok query), classifyCall ctx query rc,
          responseCall ctx processingText (.ok a), commandCall ctx query (.ok g),
          execEvent ctx.osInfo (extractScript g) out (some e)]) ∨
      (∃ a g out r, actions (loopBody env ctx debug tr).2 =
        [Event.promptRun (.ok query), classifyCall ctx query rc,
          responseCall ctx processingText (.ok a), commandCall ctx query (.ok g),
          execEvent ctx.osInfo (extractScript g) out none, interpretCall ctx out query r]) := by
  obtain ⟨rc, hr⟩ := loopBody_classified env ctx debug tr query _ h
  obtain ⟨r1, r2, out, err, r4, hy⟩ := caseY_eq env ctx debug query
    (tr ++ [Event.promptRun (.ok query), classifyCall ctx query rc])
  rw [hr, switchQueryType_y, hy]
  refine ⟨rfl, rc, ?_⟩
  have hhd : actions [Event.promptRun (.ok query), classifyCall ctx query rc] =
      [Event.promptRun (.ok query), classifyCall ctx query rc] := by
    simp [actions, classifyCall, Event.isPrint]
  simp only [actions_append, hhd]
  rcases r1 with a | e1
  · rcases r2 with g | e2
    · rcases err with _ | e3
      · right; right; right
        refine ⟨a, g, out, r4, ?_⟩
        simp only [yTrace, actions_append, actions_generateTrace, actions_executeTrace_none]
        simp [actions, responseCall, Event.isPrint]
      · right; right; left
        refine ⟨a, g, out, e3, ?_⟩
        simp only [yTrace, actions_append, actions_generateTrace, actions_executeTrace_some]
        simp [actions, responseCall, Event.isPrint]
    · right; left
      refine ⟨a, e2, ?_⟩
      simp only [yTrace, actions_append, actions_generateTrace]
      simp [actions, responseCall, Event.isPrint]
  · left
    refine ⟨e1, ?_⟩
    simp [yTrace, actions, responseCall, Event.isPrint]

/-- C10 at a task whose command fails. -/
theorem task_turn_stage_order_witness :
    ClassifiedAs taskEnv demoCtx [] "ls the files".toList "y".toList ∧
      (loopBody taskEnv demoCtx false []).1 = .continueLoop :=
  have h : ClassifiedAs taskEnv demoCtx [] "ls the files".toList "y".toList :=
    ⟨rfl, by decide, by decide, by decide, by decide⟩
  ⟨h, (task_turn_stage_order taskEnv demoCtx false [] _ h).1⟩

end ShellScribeAI
